import Mathlib

/-!
Verification development for the algo-trader repository.

The repository under verification is a React dashboard for an algorithmic
trading bot together with the natural-language specification of the trading
engine the dashboard talks to.  The dashboard source (status indicators,
settings and backtest forms, run controls) is embedded directly from the
TypeScript files.  The trading engine itself (ledger, signal generation,
risk management, trading loop, analytics) is not part of the repository
sources; those components are modelled from the specification, and each such
definition carries a doc comment saying so.

Prices, quantities and percentages are modelled as rationals; symbols as
strings; time stamps as naturals.
-/

namespace StatusIndicator

/-- Result record of getStatusInfo in src/src/components/StatusIndicator.tsx:
the icon component name, the display text and the CSS class name. -/
structure StatusInfo where
  icon : String
  text : String
  className : String
deriving DecidableEq, Repr

/-- Embedding of getStatusInfo (StatusIndicator.tsx lines 15-51): when the
connection flag is false it returns the Disconnected record before ever
inspecting the status string; otherwise it switches on the status string with
a default branch that renders Stopped. -/
def getStatusInfo (status : String) (connected : Bool) : StatusInfo :=
  if !connected then
    { icon := "XCircleIcon", text := "Disconnected", className := "status-error" }
  else
    match status with
    | "live_trading" =>
        { icon := "CheckCircleIcon", text := "Live Trading", className := "status-running" }
    | "backtesting" =>
        { icon := "ClockIcon", text := "Backtesting", className := "status-backtesting" }
    | "error" =>
        { icon := "ExclamationCircleIcon", text := "Error", className := "status-error" }
    | _ =>
        { icon := "ClockIcon", text := "Stopped", className := "status-stopped" }

end StatusIndicator

namespace TradingDashboard

/-- Embedding of getStatusColor (TradingDashboard.tsx lines 62-71). -/
def getStatusColor (status : String) : String :=
  match status with
  | "idle" => "bg-gray-500"
  | "starting" => "bg-yellow-500"
  | "running" => "bg-green-500"
  | "error" => "bg-red-500"
  | "stopped" => "bg-gray-400"
  | _ => "bg-gray-500"

/-- Embedding of getStatusText (TradingDashboard.tsx lines 73-82). -/
def getStatusText (status : String) : String :=
  match status with
  | "idle" => "Idle"
  | "starting" => "Starting..."
  | "running" => "Running"
  | "error" => "Error"
  | "stopped" => "Stopped"
  | _ => "Unknown"

/-- Embedding of isStartDisabled (TradingDashboard.tsx line 84): the start
button is disabled while a run is starting or running. -/
def isStartDisabled (status : String) : Bool :=
  status == "starting" || status == "running"

/-- Embedding of isStopDisabled (TradingDashboard.tsx line 85): the stop
button is disabled when idle or stopped. -/
def isStopDisabled (status : String) : Bool :=
  status == "idle" || status == "stopped"

/-- Status strings that the dashboard switch statements recognise with a
dedicated branch (TradingDashboard.tsx lines 62-82). -/
def dashboardStates : List String :=
  ["idle", "starting", "running", "error", "stopped"]

end TradingDashboard

namespace Settings

/-- Strategy settings form data of the Settings page (interface
StrategySettings in the Settings source file), symbols handled separately. -/
structure StrategyForm where
  short_sma : ℚ
  long_sma : ℚ
  stop_loss_pct : ℚ
  take_profit_pct : ℚ
  position_size_pct : ℚ
deriving DecidableEq, Repr

/-- Embedding of the register rules for short_sma (Settings source, lines
106-110): required, min 5, max 50. -/
def shortSmaValid (v : ℚ) : Bool :=
  decide (5 ≤ v) && decide (v ≤ 50)

/-- Embedding of the register rules for long_sma (Settings source, lines
126-131): required, min 20, max 200, and the validate callback requiring the
value to be strictly greater than the watched short_sma. -/
def longSmaValid (shortSma v : ℚ) : Bool :=
  decide (20 ≤ v) && decide (v ≤ 200) && decide (shortSma < v)

/-- Embedding of the register rules for stop_loss_pct (Settings source):
min 0.5, max 10. -/
def stopLossPctValid (v : ℚ) : Bool :=
  decide (1/2 ≤ v) && decide (v ≤ 10)

/-- Embedding of the register rules for take_profit_pct (Settings source):
min 1, max 20. -/
def takeProfitPctValid (v : ℚ) : Bool :=
  decide (1 ≤ v) && decide (v ≤ 20)

/-- Embedding of the register rules for position_size_pct (Settings source):
min 5, max 50. -/
def positionSizePctValid (v : ℚ) : Bool :=
  decide (5 ≤ v) && decide (v ≤ 50)

/-- Whole-form validation: react-hook-form accepts the submission exactly
when every registered rule passes. -/
def formValid (f : StrategyForm) : Bool :=
  shortSmaValid f.short_sma &&
  longSmaValid f.short_sma f.long_sma &&
  stopLossPctValid f.stop_loss_pct &&
  takeProfitPctValid f.take_profit_pct &&
  positionSizePctValid f.position_size_pct

/-- Embedding of handleSubmit(onSubmit) on the Settings form: react-hook-form
invokes onSubmit, which issues the PUT request to /api/settings, only when
validation of every registered field passes; otherwise no request is sent.
The result is the payload of the request when one is sent. -/
def submitSettings (f : StrategyForm) : Option StrategyForm :=
  if formValid f then some f else none

end Settings

namespace Backtest

/-- Backtest form fields of src/src/pages/Backtest.tsx (dates and symbols
omitted; they carry no numeric validation). -/
structure BacktestForm where
  short_sma : ℚ
  long_sma : ℚ
  stop_loss_pct : ℚ
  take_profit_pct : ℚ
  position_size_pct : ℚ
deriving DecidableEq, Repr

/-- Embedding of the defaultValues object of the Backtest form
(src/src/pages/Backtest.tsx lines 23-32): note that position_size_pct
defaults to the whole percent 25, not the fraction 0.25. -/
def backtestDefaults : BacktestForm :=
  { short_sma := 20
    long_sma := 50
    stop_loss_pct := 3
    take_profit_pct := 6
    position_size_pct := 25 }

/-- Embedding of the register rule for position_size_pct on the Backtest form
(src/src/pages/Backtest.tsx line 202): required, min 5, max 50 — the form
accepts whole percents in that interval. -/
def positionSizePctInRange (v : ℚ) : Bool :=
  decide (5 ≤ v) && decide (v ≤ 50)

end Backtest

namespace Engine

/-- Modelled from the spec: trade direction of a Signal (BUY or SELL),
spec section 3; the engine sources are not in the repository. -/
inductive Direction where
  | buy
  | sell
deriving DecidableEq, Repr

/-- Modelled from the spec: exit reason of a forced exit, spec sections 3
and 4.3; the RiskManager source is not in the repository. -/
inductive ExitReason where
  | stop_loss
  | take_profit
  | signal
deriving DecidableEq, Repr

/-- Modelled from the spec: moving-average state of one symbol, spec
section 3 (MovingAverageState); the engine sources are not in the
repository.  Crossover detection needs the current and the previous pair of
short and long simple moving averages. -/
structure MAState where
  previous_short : ℚ
  previous_long : ℚ
  short_value : ℚ
  long_value : ℚ
deriving DecidableEq, Repr

/-- Modelled from the spec: SignalGenerator.evaluate, spec section 4.2; the
SignalGenerator source is not in the repository.  BUY on a golden cross
(previous short at or below previous long and current short strictly above
current long), SELL on a death cross (mirrored), otherwise no signal. -/
def evaluate (s : MAState) : Option Direction :=
  if s.previous_short ≤ s.previous_long ∧ s.long_value < s.short_value then
    some .buy
  else if s.previous_long ≤ s.previous_short ∧ s.short_value < s.long_value then
    some .sell
  else
    none

/-- Modelled from the spec: the moving-average state seen at step i of a
stream of (short, long) average pairs; the pair at index i is the previous
pair and the pair at index i + 1 is the current pair. -/
def stateAt (sma : ℕ → ℚ × ℚ) (i : ℕ) : MAState :=
  { previous_short := (sma i).1
    previous_long := (sma i).2
    short_value := (sma (i + 1)).1
    long_value := (sma (i + 1)).2 }

/-- Modelled from the spec: the signal emitted at step i of a stream of
(short, long) average pairs. -/
def emitAt (sma : ℕ → ℚ × ℚ) (i : ℕ) : Option Direction :=
  evaluate (stateAt sma i)

/-- Modelled from the spec: an open Position, spec section 3; the
PortfolioLedger source is not in the repository. -/
structure Position where
  symbol : String
  quantity : ℚ
  avg_entry_price : ℚ
  entry_time : ℕ
  stop_loss_price : ℚ
  take_profit_price : ℚ
deriving DecidableEq, Repr

/-- Modelled from the spec: a closed round-trip Trade, spec section 3; the
PortfolioLedger source is not in the repository. -/
structure Trade where
  symbol : String
  entry_time : ℕ
  exit_time : ℕ
  entry_price : ℚ
  exit_price : ℚ
  quantity : ℚ
  pnl : ℚ
  exit_reason : ExitReason
deriving DecidableEq, Repr

/-- Modelled from the spec: whether a fill opens or closes a position. -/
inductive FillSide where
  | entry
  | exit
deriving DecidableEq, Repr

/-- Modelled from the spec: a Fill confirmation from the ExecutionPort, spec
sections 4.4 and 4.5; the engine sources are not in the repository. -/
structure Fill where
  symbol : String
  side : FillSide
  price : ℚ
  quantity : ℚ
  fees : ℚ
  time : ℕ
  stop_loss_price : ℚ
  take_profit_price : ℚ
  exit_reason : ExitReason
deriving DecidableEq, Repr

/-- Modelled from the spec: the state owned by the PortfolioLedger, spec
sections 3 and 4.5 (Account cash and equity, the open Position map, the
Trade log); the PortfolioLedger source is not in the repository. -/
structure LedgerState where
  cash : ℚ
  equity : ℚ
  positions : List Position
  trades : List Trade
deriving DecidableEq, Repr

/-- Modelled from the spec: fatal ledger errors, spec section 7
(LedgerInconsistency is the equity invariant violation). -/
inductive LedgerError where
  | ledgerInconsistency
  | missingPosition
deriving DecidableEq, Repr

/-- Modelled from the spec: market value of one position at the latest
price of its symbol. -/
def positionValue (prices : String → ℚ) (p : Position) : ℚ :=
  p.quantity * prices p.symbol

/-- Modelled from the spec: total market value of the open positions. -/
def marketValue (prices : String → ℚ) (ps : List Position) : ℚ :=
  (ps.map (positionValue prices)).sum

/-- Modelled from the spec: the standing Account invariant of spec
section 3, equity = cash + sum of position quantity times current price. -/
def equityInvariant (prices : String → ℚ) (st : LedgerState) : Prop :=
  st.equity = st.cash + marketValue prices st.positions

instance (prices : String → ℚ) (st : LedgerState) :
    Decidable (equityInvariant prices st) := by
  unfold equityInvariant
  infer_instance

/-- Modelled from the spec: the invariant check enforced after every
applyFill, spec section 4.5: a violation is the fatal LedgerInconsistency
error and is never silently corrected — on success the state is returned
unchanged. -/
def checkInvariant (prices : String → ℚ) (st : LedgerState) :
    Except LedgerError LedgerState :=
  if equityInvariant prices st then .ok st else .error .ledgerInconsistency

/-- Modelled from the spec: markToMarket of spec section 4.5, recomputing
equity from cash and the latest prices without touching cash, positions or
the trade log. -/
def markToMarket (prices : String → ℚ) (st : LedgerState) : LedgerState :=
  { st with equity := st.cash + marketValue prices st.positions }

/-- Modelled from the spec: applyFill of spec section 4.5; the
PortfolioLedger source is not in the repository.  An entry fill deducts
price times quantity from cash and creates the Position; an exit fill adds
the proceeds to cash, removes the Position and appends a Trade with
pnl = (exit_price - entry_price) * quantity - fees.  Equity is then marked
to market and the equity invariant is enforced, returning the fatal
LedgerInconsistency error on violation. -/
def applyFill (prices : String → ℚ) (st : LedgerState) (f : Fill) :
    Except LedgerError LedgerState :=
  match f.side with
  | .entry =>
      let pos : Position :=
        { symbol := f.symbol
          quantity := f.quantity
          avg_entry_price := f.price
          entry_time := f.time
          stop_loss_price := f.stop_loss_price
          take_profit_price := f.take_profit_price }
      let st1 : LedgerState :=
        { st with
            cash := st.cash - f.price * f.quantity
            positions := st.positions ++ [pos] }
      checkInvariant prices (markToMarket prices st1)
  | .exit =>
      match st.positions.find? (fun p => p.symbol == f.symbol) with
      | none => .error .missingPosition
      | some p =>
          let trade : Trade :=
            { symbol := f.symbol
              entry_time := p.entry_time
              exit_time := f.time
              entry_price := p.avg_entry_price
              exit_price := f.price
              quantity := p.quantity
              pnl := (f.price - p.avg_entry_price) * p.quantity - f.fees
              exit_reason := f.exit_reason }
          let st1 : LedgerState :=
            { st with
                cash := st.cash + f.price * p.quantity - f.fees
                positions := st.positions.filter (fun q => q.symbol != f.symbol)
                trades := st.trades ++ [trade] }
          checkInvariant prices (markToMarket prices st1)

/-- Modelled from the spec: a whole sequence of fills applied to the ledger
in order, stopping at the first fatal error. -/
def applyFills (prices : String → ℚ) (st : LedgerState) :
    List Fill → Except LedgerError LedgerState
  | [] => .ok st
  | f :: fs => do
      let st1 ← applyFill prices st f
      applyFills prices st1 fs

end Engine

namespace Engine

/-- Modelled from the spec: the Account record of spec section 3 (cash,
equity, buying power); the engine sources are not in the repository. -/
structure Account where
  cash : ℚ
  equity : ℚ
  buying_power : ℚ
deriving DecidableEq, Repr

/-- Modelled from the spec: an Intent, a Signal annotated with the data the
RiskManager needs (spec section 3); the engine sources are not in the
repository. -/
structure Intent where
  symbol : String
  direction : Direction
  price : ℚ
  time : ℕ
deriving DecidableEq, Repr

/-- Modelled from the spec: an order approved and sized by the RiskManager
with stop and target levels attached (spec section 4.3). -/
structure ApprovedOrder where
  symbol : String
  direction : Direction
  quantity : ℚ
  price : ℚ
  time : ℕ
  stop_loss_price : ℚ
  take_profit_price : ℚ
deriving DecidableEq, Repr

/-- Modelled from the spec: the reasons of a RiskVeto (spec sections 4.3
and 7: capital, max-positions, existing-position). -/
inductive VetoReason where
  | existingPosition
  | maxPositions
  | capital
deriving DecidableEq, Repr

/-- Modelled from the spec: the risk configuration values of spec
section 6; position_size_pct is the fraction of equity per position
(percentage sizing mode; the fixed-dollar mode is not exercised by any
claim). -/
structure RiskParams where
  position_size_pct : ℚ
  stop_loss_pct : ℚ
  take_profit_pct : ℚ
  max_positions : ℕ
deriving DecidableEq, Repr

/-- Modelled from the spec: RiskManager.sizeAndApprove for an entry intent
(spec section 4.3); the RiskManager source is not in the repository.  Veto
when a Position already exists for the symbol; veto when the count of open
positions would exceed max_positions; quantity is
floor(equity * position_size_pct / price); veto when the resulting notional
exceeds buying power; on approval the stop and target levels are
price * (1 - stop_loss_pct) and price * (1 + take_profit_pct). -/
def sizeAndApprove (params : RiskParams) (intent : Intent) (acct : Account)
    (positions : List Position) : Except VetoReason ApprovedOrder :=
  if positions.any (fun p => p.symbol == intent.symbol) then
    .error .existingPosition
  else if params.max_positions ≤ positions.length then
    .error .maxPositions
  else if acct.buying_power <
      (⌊acct.equity * params.position_size_pct / intent.price⌋ : ℚ) * intent.price then
    .error .capital
  else
    .ok { symbol := intent.symbol
          direction := intent.direction
          quantity := (⌊acct.equity * params.position_size_pct / intent.price⌋ : ℚ)
          price := intent.price
          time := intent.time
          stop_loss_price := intent.price * (1 - params.stop_loss_pct)
          take_profit_price := intent.price * (1 + params.take_profit_pct) }

/-- Modelled from the spec: a forced exit order produced by the stop and
target scan (spec section 4.3). -/
structure ExitOrder where
  symbol : String
  quantity : ℚ
  price : ℚ
  reason : ExitReason
deriving DecidableEq, Repr

/-- Modelled from the spec: RiskManager.scanExitsDue (spec section 4.3); the
RiskManager source is not in the repository.  Each open Position whose
current price breaches its stop or target produces a forced exit order; a
price at or below the stop yields exit_reason stop_loss, otherwise a price
at or above the target yields exit_reason take_profit. -/
def scanExitsDue (positions : List Position) (prices : String → ℚ) :
    List ExitOrder :=
  positions.filterMap (fun p =>
    let price := prices p.symbol
    if price ≤ p.stop_loss_price then
      some { symbol := p.symbol, quantity := p.quantity, price := price,
             reason := .stop_loss }
    else if p.take_profit_price ≤ price then
      some { symbol := p.symbol, quantity := p.quantity, price := price,
             reason := .take_profit }
    else
      none)

/-- Modelled from the spec: the ordered actions of one tick of the trading
loop; forced exits are processed strictly before signal-driven actions
(spec sections 4.3 and 4.7). -/
inductive TickAction where
  | forcedExit (o : ExitOrder)
  | signalExit (o : ExitOrder)
  | newEntry (o : ApprovedOrder)
deriving DecidableEq, Repr

/-- Modelled from the spec: the persisted configuration consumed by the
loop (spec section 6: short_window, long_window, stop_loss_pct,
take_profit_pct, position_size_pct, max_positions). -/
structure LoopParams where
  short_window : ℕ
  long_window : ℕ
  stop_loss_pct : ℚ
  take_profit_pct : ℚ
  position_size_pct : ℚ
  max_positions : ℕ
deriving DecidableEq, Repr

/-- Modelled from the spec: the risk configuration carried by the loop
configuration. -/
def riskOf (p : LoopParams) : RiskParams :=
  { position_size_pct := p.position_size_pct
    stop_loss_pct := p.stop_loss_pct
    take_profit_pct := p.take_profit_pct
    max_positions := p.max_positions }

/-- Modelled from the spec: a price Bar of spec section 3 (the open field
is renamed open_price because open is a reserved word). -/
structure Bar where
  symbol : String
  timestamp : ℕ
  open_price : ℚ
  high : ℚ
  low : ℚ
  close : ℚ
  volume : ℚ
deriving DecidableEq, Repr

/-- Modelled from the spec: the per-symbol close-price history kept by the
PriceSeriesBuffer, most recent close first, together with the ledger: the
whole mutable state of one run (spec sections 4.1 and 4.7). -/
structure EngineState where
  buffers : List (String × List ℚ)
  ledger : LedgerState
deriving DecidableEq, Repr

/-- Modelled from the spec: the close history recorded for a symbol. -/
def lookupBuffer (bufs : List (String × List ℚ)) (sym : String) : List ℚ :=
  ((bufs.find? (fun b => b.1 == sym)).map Prod.snd).getD []

/-- Modelled from the spec: push the newest close of a symbol onto its
buffer (spec section 4.1). -/
def updateBuffer (bufs : List (String × List ℚ)) (sym : String) (close : ℚ) :
    List (String × List ℚ) :=
  if bufs.any (fun b => b.1 == sym) then
    bufs.map (fun b => if b.1 == sym then (b.1, close :: b.2) else b)
  else
    bufs ++ [(sym, [close])]

/-- Modelled from the spec: the latest known price of each symbol, read off
the buffers (0 for a symbol never seen; such a symbol never has an open
position). -/
def latestPrices (bufs : List (String × List ℚ)) : String → ℚ :=
  fun sym => (lookupBuffer bufs sym).headD 0

/-- Modelled from the spec: simple moving average of the most recent n
closes (spec glossary). -/
def smaOf (closes : List ℚ) (n : ℕ) : ℚ :=
  (closes.take n).sum / (n : ℚ)

/-- Modelled from the spec: the MovingAverageState read off a close
history, most recent close first; the previous averages are those of the
history without the newest close (spec sections 3 and 4.1). -/
def maStateOf (closes : List ℚ) (shortW longW : ℕ) : MAState :=
  { previous_short := smaOf (closes.drop 1) shortW
    previous_long := smaOf (closes.drop 1) longW
    short_value := smaOf closes shortW
    long_value := smaOf closes longW }

/-- Modelled from the spec: the Fill produced by the SimulatedBroker for a
forced or signal exit order, at the reference price with zero slippage
(spec section 4.4). -/
def fillOfExit (o : ExitOrder) (t : ℕ) : Fill :=
  { symbol := o.symbol, side := .exit, price := o.price,
    quantity := o.quantity, fees := 0, time := t,
    stop_loss_price := 0, take_profit_price := 0, exit_reason := o.reason }

/-- Modelled from the spec: the Fill produced by the SimulatedBroker for an
approved entry order, at the reference price with zero slippage (spec
section 4.4). -/
def fillOfEntry (o : ApprovedOrder) : Fill :=
  { symbol := o.symbol, side := .entry, price := o.price,
    quantity := o.quantity, fees := 0, time := o.time,
    stop_loss_price := o.stop_loss_price,
    take_profit_price := o.take_profit_price, exit_reason := .signal }

/-- Modelled from the spec: the signal-driven actions of one tick (spec
section 4.7 step 4).  A fresh BUY signal is sized and approved by the
RiskManager; a SELL signal closes the open position of the symbol if
any. -/
def signalActions (params : LoopParams) (st : EngineState) (bar : Bar)
    (closes : List ℚ) : List TickAction :=
  match evaluate (maStateOf closes params.short_window params.long_window) with
  | some .buy =>
      match sizeAndApprove (riskOf params)
          { symbol := bar.symbol, direction := .buy,
            price := bar.close, time := bar.timestamp }
          { cash := st.ledger.cash, equity := st.ledger.equity,
            buying_power := st.ledger.cash }
          st.ledger.positions with
      | .ok o => [.newEntry o]
      | .error _ => []
  | some .sell =>
      match st.ledger.positions.find? (fun p => p.symbol == bar.symbol) with
      | some p =>
          [.signalExit { symbol := p.symbol, quantity := p.quantity,
                         price := bar.close, reason := .signal }]
      | none => []
  | none => []

/-- Modelled from the spec: the ordered action list of one tick (spec
section 4.7), forced exits strictly first. -/
def tickActions (params : LoopParams) (st : EngineState) (bar : Bar) :
    List TickAction :=
  let bufs := updateBuffer st.buffers bar.symbol bar.close
  let closes := lookupBuffer bufs bar.symbol
  if closes.length < params.long_window + 1 then
    []
  else
    let prices := latestPrices bufs
    let exits := scanExitsDue st.ledger.positions prices
    let rest : List TickAction :=
      if exits.any (fun o => o.symbol == bar.symbol) then
        []
      else
        signalActions params st bar closes
    exits.map TickAction.forcedExit ++ rest

/-- Modelled from the spec: apply one tick action to the ledger through the
ExecutionPort; a fill error leaves the ledger unchanged (spec sections 4.4
and 7, OrderError handling). -/
def applyAction (prices : String → ℚ) (t : ℕ) (st : LedgerState)
    (a : TickAction) : LedgerState :=
  let f : Fill :=
    match a with
    | .forcedExit o => fillOfExit o t
    | .signalExit o => fillOfExit o t
    | .newEntry o => fillOfEntry o
  match applyFill prices st f with
  | .ok st1 => st1
  | .error _ => st

/-- Modelled from the spec: one tick of the trading loop, identical in
replay and live mode (spec section 4.7 per-tick algorithm). -/
def processTick (params : LoopParams) (st : EngineState) (bar : Bar) :
    EngineState :=
  let bufs := updateBuffer st.buffers bar.symbol bar.close
  let prices := latestPrices bufs
  let actions := tickActions params st bar
  { buffers := bufs
    ledger := actions.foldl (applyAction prices bar.timestamp) st.ledger }

/-- Modelled from the spec: the fresh state of a newly started run (spec
section 4.7: a new run re-enters RUNNING with fresh ledger state). -/
def initialState (cash : ℚ) : EngineState :=
  { buffers := []
    ledger := { cash := cash, equity := cash, positions := [], trades := [] } }

/-- Modelled from the spec: a whole backtest, replaying the historical bars
in timestamp order through the per-tick algorithm (spec sections 4.7
and 5). -/
def runBacktest (params : LoopParams) (cash : ℚ) (bars : List Bar) :
    EngineState :=
  bars.foldl (processTick params) (initialState cash)

/-- Modelled from the spec: a live run over the same sequence of polled
bars; the live polling loop drives the identical per-tick algorithm (spec
sections 1 and 4.7). -/
def runLive (params : LoopParams) (cash : ℚ) (bars : List Bar) :
    EngineState :=
  bars.foldl (processTick params) (initialState cash)

end Engine

namespace Engine

/-- Modelled from the spec: the mutation requests that can reach the
PortfolioLedger (spec sections 3 and 4.7): an entry intent, which must pass
the RiskManager gate, or an exit fill closing a position. -/
inductive PortfolioOp where
  | entryIntent (intent : Intent) (acct : Account)
  | exitFill (symbol : String) (price : ℚ) (reason : ExitReason) (t : ℕ)
deriving DecidableEq, Repr

/-- Modelled from the spec: the exit Fill closing the position of a symbol
at a price (the quantity recorded on the ledger is that of the open
position, so the fill carries none). -/
def exitFillOf (sym : String) (price : ℚ) (reason : ExitReason) (t : ℕ) :
    Fill :=
  { symbol := sym, side := .exit, price := price, quantity := 0,
    fees := 0, time := t, stop_loss_price := 0,
    take_profit_price := 0, exit_reason := reason }

/-- Modelled from the spec: one ledger mutation request processed under the
RiskManager discipline (spec section 4.3): entry intents pass through
sizeAndApprove against the current open positions and a veto or fill error
leaves the ledger unchanged; exit fills remove the position of the symbol. -/
def stepPortfolio (params : RiskParams) (prices : String → ℚ)
    (st : LedgerState) : PortfolioOp → LedgerState
  | .entryIntent intent acct =>
      match sizeAndApprove params intent acct st.positions with
      | .ok o =>
          match applyFill prices st (fillOfEntry o) with
          | .ok st1 => st1
          | .error _ => st
      | .error _ => st
  | .exitFill sym price reason t =>
      match applyFill prices st (exitFillOf sym price reason t) with
      | .ok st1 => st1
      | .error _ => st

/-- Modelled from the spec: a whole sequence of gated mutation requests;
every reachable portfolio state is the result of such a sequence from a
fresh ledger (spec section 3 ownership: the ledger is the single writer and
all mutations are submitted requests). -/
def runPortfolio (params : RiskParams) (prices : String → ℚ)
    (st : LedgerState) (ops : List PortfolioOp) : LedgerState :=
  ops.foldl (stepPortfolio params prices) st

/-- Modelled from the spec: the open-position invariants of spec section 3:
at most one open Position per symbol and at most max_positions open
Positions in total. -/
def positionsInvariant (params : RiskParams) (st : LedgerState) : Prop :=
  (st.positions.map Position.symbol).Nodup ∧
  st.positions.length ≤ params.max_positions

end Engine

namespace Analytics

open Engine

/-- Modelled from the spec: winRate of spec section 4.6, winning trades
over total trades and 0 when the Trade log is empty; the
PerformanceAnalytics source is not in the repository. -/
def winRate (trades : List Trade) : ℚ :=
  if trades.length = 0 then 0
  else ((trades.filter (fun t => decide (0 < t.pnl))).length : ℚ) / (trades.length : ℚ)

/-- Modelled from the spec: arithmetic mean of a list of rationals (0 for
the empty list, since division by the zero length yields 0). -/
def mean (xs : List ℚ) : ℚ :=
  xs.sum / (xs.length : ℚ)

/-- Modelled from the spec: population variance of a list of rationals. -/
def variance (xs : List ℚ) : ℚ :=
  mean (xs.map (fun x => (x - mean xs) ^ 2))

/-- Modelled from the spec: standard deviation of the daily returns, the
square root of the variance. -/
noncomputable def std (xs : List ℚ) : ℝ :=
  Real.sqrt ((variance xs : ℚ) : ℝ)

/-- Modelled from the spec: the annualized Sharpe ratio of spec
section 4.6, mean(daily_returns) / std(daily_returns) * sqrt(252), reported
as exactly 0 when the standard deviation is 0 — never an error, the
function is total. -/
noncomputable def sharpe (xs : List ℚ) : ℝ :=
  if std xs = 0 then 0
  else ((mean xs : ℚ) : ℝ) / std xs * Real.sqrt 252

/-- Modelled from the spec: the balance series of the PerformanceSnapshot
stream (spec section 3), starting from the initial balance and accumulating
the pnl of each closed Trade, one snapshot per trading period. -/
def balances (prev : ℚ) : List Trade → List ℚ
  | [] => [prev]
  | t :: ts => prev :: balances (prev + t.pnl) ts

/-- Modelled from the spec: the daily returns derived from the balance
series, each period contributing (balance - previous_balance) /
previous_balance. -/
def dailyReturns (prev : ℚ) : List Trade → List ℚ
  | [] => []
  | t :: ts => ((prev + t.pnl) - prev) / prev :: dailyReturns (prev + t.pnl) ts

end Analytics

namespace Engine

/-- Concrete price function used by the evaluation examples: every symbol
trades at 100. -/
def demoPrices : String → ℚ := fun _ => 100

/-- Concrete fresh ledger used by the evaluation examples. -/
def demoLedger0 : LedgerState :=
  { cash := 1000, equity := 1000, positions := [], trades := [] }

/-- Concrete entry fill used by the evaluation examples. -/
def demoEntryFill : Fill :=
  { symbol := "AAPL", side := .entry, price := 10, quantity := 2, fees := 0,
    time := 0, stop_loss_price := 9, take_profit_price := 12,
    exit_reason := .signal }

/-- Ledger state after applying the concrete entry fill at the concrete
prices: cash drops by the 20 notional and equity marks the 2 shares at
100. -/
def demoLedger1 : LedgerState :=
  { cash := 980
    equity := 1180
    positions := [{ symbol := "AAPL", quantity := 2, avg_entry_price := 10,
                    entry_time := 0, stop_loss_price := 9,
                    take_profit_price := 12 }]
    trades := [] }

/-- Concrete stream of (short, long) moving-average pairs with a golden
cross at steps 0 and 2 and the averages back below in between. -/
def demoSma : ℕ → ℚ × ℚ := fun n =>
  if n = 0 then (1, 2)
  else if n = 1 then (3, 2)
  else if n = 2 then (1, 2)
  else (3, 2)

/-- Concrete risk configuration of the sizing scenario: a quarter of equity
per position. -/
def demoRisk : RiskParams :=
  { position_size_pct := 1/4, stop_loss_pct := 3/100,
    take_profit_pct := 6/100, max_positions := 5 }

/-- Concrete account of the sizing scenario: equity 100000 and matching
buying power. -/
def demoAccount : Account :=
  { cash := 100000, equity := 100000, buying_power := 100000 }

/-- Concrete entry intent of the sizing scenario: a BUY at price 100. -/
def demoIntent : Intent :=
  { symbol := "AAPL", direction := .buy, price := 100, time := 0 }

/-- Approved order of the sizing scenario: 250 shares at 100 with stop 97
and target 106. -/
def demoOrder : ApprovedOrder :=
  { symbol := "AAPL", direction := .buy, quantity := 250, price := 100,
    time := 0, stop_loss_price := 97, take_profit_price := 106 }

/-- Concrete open position of symbol B with stop 9 and target 12, held by
the tick example. -/
def demoPositionB : Position :=
  { symbol := "B", quantity := 2, avg_entry_price := 10, entry_time := 0,
    stop_loss_price := 9, take_profit_price := 12 }

/-- Concrete loop configuration of the tick example: windows 1 and 2. -/
def demoLoopParams : LoopParams :=
  { short_window := 1, long_window := 2, stop_loss_pct := 3/100,
    take_profit_pct := 6/100, position_size_pct := 1/4, max_positions := 5 }

/-- Concrete engine state of the tick example: symbol A has closes 3 then 1
recorded, symbol B trades at 8 — below its stop — and is held. -/
def demoEngineState : EngineState :=
  { buffers := [("A", [1, 3]), ("B", [8])]
    ledger := { cash := 1000, equity := 1000, positions := [demoPositionB],
                trades := [] } }

/-- Concrete bar of the tick example: symbol A closes at 4, producing a
golden cross of the window-1 and window-2 averages. -/
def demoBar : Bar :=
  { symbol := "A", timestamp := 1, open_price := 4, high := 4, low := 4,
    close := 4, volume := 0 }

/-- Forced exit order produced for symbol B in the tick example. -/
def demoExitOrderB : ExitOrder :=
  { symbol := "B", quantity := 2, price := 8, reason := .stop_loss }

/-- Approved entry order produced for symbol A in the tick example:
floor(1000 * (1/4) / 4) = 62 shares at 4. -/
def demoEntryOrderA : ApprovedOrder :=
  { symbol := "A", direction := .buy, quantity := 62, price := 4, time := 1,
    stop_loss_price := 97/25, take_profit_price := 106/25 }

/-- Concrete price function with every symbol at 8, below the stop of the
demo position. -/
def demoPricesLow : String → ℚ := fun _ => 8

end Engine

namespace Analytics

open Engine

/-- Concrete trade log in which every trade loses money. -/
def demoLosingTrades : List Trade :=
  [{ symbol := "AAPL", entry_time := 0, exit_time := 1, entry_price := 10,
     exit_price := 9, quantity := 10, pnl := -10, exit_reason := .stop_loss },
   { symbol := "TSLA", entry_time := 2, exit_time := 3, entry_price := 20,
     exit_price := 19, quantity := 5, pnl := -5, exit_reason := .stop_loss }]

end Analytics

/-- Claim C10: whenever the connected flag is false, StatusIndicator renders
the Disconnected record with error styling regardless of the status string,
and the rendered indicator is independent of the status argument. -/
theorem c10_disconnected_dominates :
    (∀ status, StatusIndicator.getStatusInfo status false =
      { icon := "XCircleIcon", text := "Disconnected",
        className := "status-error" }) ∧
    (∀ s t, StatusIndicator.getStatusInfo s false =
      StatusIndicator.getStatusInfo t false) :=
  ⟨fun _ => rfl, fun _ _ => rfl⟩

/-- Counterexample to claim C8 as stated: the dashboard recognises a
distinct starting state, which is not among the five claimed states, and
does not recognise a stopping state at all (it falls through to the Unknown
default); the StatusIndicator component likewise recognises live_trading
and backtesting instead of the claimed set. -/
theorem c8_states_counterexample :
    TradingDashboard.getStatusText "starting" = "Starting..." ∧
    TradingDashboard.getStatusText "stopping" = "Unknown" ∧
    TradingDashboard.isStartDisabled "starting" = true ∧
    (StatusIndicator.getStatusInfo "backtesting" true).text = "Backtesting" :=
  ⟨rfl, rfl, rfl, rfl⟩

/-- Claim C8 as amended: the dashboard run states are idle, starting,
running, error and stopped — there is no stopping state — and the controls
enforce the transition discipline: a new start is possible exactly outside
starting and running (so stopped and error are left only by an explicit new
start), and a stop is possible exactly outside idle and stopped. -/
theorem c8_dashboard_state_machine :
    TradingDashboard.getStatusText "stopping" = "Unknown" ∧
    (∀ s, TradingDashboard.isStartDisabled s = true ↔
      (s = "starting" ∨ s = "running")) ∧
    (∀ s, TradingDashboard.isStopDisabled s = true ↔
      (s = "idle" ∨ s = "stopped")) ∧
    TradingDashboard.isStartDisabled "stopped" = false ∧
    TradingDashboard.isStartDisabled "error" = false ∧
    (∀ s ∈ TradingDashboard.dashboardStates,
      TradingDashboard.getStatusText s ≠ "Unknown") := by
  refine ⟨rfl, ?_, ?_, rfl, rfl, ?_⟩
  · intro s
    simp [TradingDashboard.isStartDisabled]
  · intro s
    simp [TradingDashboard.isStopDisabled]
  · decide

/-- Witness for claim C8: the amended statement applied at the concrete
states running and stopped. -/
theorem c8_dashboard_state_machine_witness :
    TradingDashboard.isStartDisabled "running" = true ∧
    TradingDashboard.isStopDisabled "stopped" = true :=
  ⟨(c8_dashboard_state_machine.2.1 "running").mpr (Or.inr rfl),
   (c8_dashboard_state_machine.2.2.1 "stopped").mpr (Or.inr rfl)⟩

/-- Claim C9: the Settings strategy form sends the update request only when
validation passes, and validation fails whenever long_sma is not strictly
greater than short_sma, whenever short_sma lies outside [5, 50], and
whenever long_sma lies outside [20, 200]. -/
theorem c9_settings_validation :
    (∀ f, (Settings.submitSettings f).isSome = true →
      Settings.formValid f = true) ∧
    (∀ f : Settings.StrategyForm, f.long_sma ≤ f.short_sma →
      Settings.formValid f = false) ∧
    (∀ f : Settings.StrategyForm, f.short_sma < 5 ∨ 50 < f.short_sma →
      Settings.formValid f = false) ∧
    (∀ f : Settings.StrategyForm, f.long_sma < 20 ∨ 200 < f.long_sma →
      Settings.formValid f = false) := by
  have hval : ∀ f : Settings.StrategyForm, Settings.formValid f = true →
      5 ≤ f.short_sma ∧ f.short_sma ≤ 50 ∧
      20 ≤ f.long_sma ∧ f.long_sma ≤ 200 ∧ f.short_sma < f.long_sma := by
    intro f h
    simp only [Settings.formValid, Settings.shortSmaValid, Settings.longSmaValid,
      Settings.stopLossPctValid, Settings.takeProfitPctValid,
      Settings.positionSizePctValid, Bool.and_eq_true, decide_eq_true_eq] at h
    obtain ⟨⟨⟨⟨⟨hs1, hs2⟩, ⟨hl1, hl2⟩, hlt⟩, _⟩, _⟩, _⟩ := h
    exact ⟨hs1, hs2, hl1, hl2, hlt⟩
  refine ⟨?_, ?_, ?_, ?_⟩
  · intro f h
    cases hv : Settings.formValid f with
    | false => simp [Settings.submitSettings, hv] at h
    | true => rfl
  · intro f hle
    cases hv : Settings.formValid f with
    | false => rfl
    | true =>
      obtain ⟨_, _, _, _, hlt⟩ := hval f hv
      exact absurd hle (not_le.mpr hlt)
  · intro f hout
    cases hv : Settings.formValid f with
    | false => rfl
    | true =>
      obtain ⟨h1, h2, _⟩ := hval f hv
      rcases hout with h | h
      · exact absurd h1 (not_le.mpr h)
      · exact absurd h2 (not_le.mpr h)
  · intro f hout
    cases hv : Settings.formValid f with
    | false => rfl
    | true =>
      obtain ⟨_, _, h3, h4, _⟩ := hval f hv
      rcases hout with h | h
      · exact absurd h3 (not_le.mpr h)
      · exact absurd h4 (not_le.mpr h)

/-- Witness for claim C9: the validation theorem applied at a concrete form
whose long SMA does not exceed its short SMA. -/
theorem c9_settings_validation_witness :
    Settings.formValid
      { short_sma := 25, long_sma := 20, stop_loss_pct := 1,
        take_profit_pct := 2, position_size_pct := 10 } = false :=
  c9_settings_validation.2.1
    { short_sma := 25, long_sma := 20, stop_loss_pct := 1,
      take_profit_pct := 2, position_size_pct := 10 } (by norm_num)

open Engine Analytics

theorem checkInvariant_ok_elim {prices : String → ℚ} {st st' : LedgerState}
    (h : checkInvariant prices st = .ok st') :
    st' = st ∧ equityInvariant prices st := by
  unfold checkInvariant at h
  split at h
  · rename_i hinv
    cases h
    exact ⟨rfl, hinv⟩
  · cases h

theorem equityInvariant_markToMarket (prices : String → ℚ)
    (st : LedgerState) : equityInvariant prices (markToMarket prices st) :=
  rfl

/-- Claim C1: after every applyFill that succeeds, the equity of the account
equals cash plus the summed market value of the open positions; a violation
of the check is the fatal LedgerInconsistency error, and the check never
silently corrects the state — whenever it succeeds it returns the state
unchanged. -/
theorem c1_equity_invariant :
    (∀ (prices : String → ℚ) (st : LedgerState) (f : Fill) (st' : LedgerState),
      applyFill prices st f = .ok st' → equityInvariant prices st') ∧
    (∀ (prices : String → ℚ) (st : LedgerState), ¬ equityInvariant prices st →
      checkInvariant prices st = .error .ledgerInconsistency) ∧
    (∀ (prices : String → ℚ) (st st' : LedgerState),
      checkInvariant prices st = .ok st' → st' = st) := by
  refine ⟨?_, ?_, ?_⟩
  · intro prices st f st' h
    obtain ⟨sym, side, price, qty, fees, time, slp, tpp, er⟩ := f
    cases side with
    | entry =>
      simp only [applyFill] at h
      obtain ⟨rfl, hinv⟩ := checkInvariant_ok_elim h
      exact hinv
    | exit =>
      simp only [applyFill] at h
      cases hf : st.positions.find? (fun p => p.symbol == sym) with
      | none => rw [hf] at h; cases h
      | some p =>
        rw [hf] at h
        obtain ⟨rfl, hinv⟩ := checkInvariant_ok_elim h
        exact hinv
  · intro prices st hni
    unfold checkInvariant
    rw [if_neg hni]
  · intro prices st st' h
    exact (checkInvariant_ok_elim h).1

/-- Witness for claim C1: the invariant theorem applied to a concrete entry
fill on a fresh ledger. -/
theorem c1_equity_invariant_witness :
    equityInvariant demoPrices demoLedger1 :=
  c1_equity_invariant.1 demoPrices demoLedger0 demoEntryFill demoLedger1
    (by norm_num [applyFill, checkInvariant, markToMarket, equityInvariant,
      marketValue, positionValue, demoPrices, demoLedger0, demoEntryFill,
      demoLedger1])

/-- Claim C2: evaluate returns a BUY signal exactly when the previous short
average is at or below the previous long average and the current short
average is strictly above the current long average, a SELL signal exactly in
the mirrored situation, and at most one signal per crossing event: between
two BUY emissions of one moving-average stream the short average was back at
or below the long average at some strictly later step, and symmetrically for
SELL. -/
theorem c2_signal_crossover :
    (∀ s : MAState, evaluate s = some .buy ↔
      (s.previous_short ≤ s.previous_long ∧ s.long_value < s.short_value)) ∧
    (∀ s : MAState, evaluate s = some .sell ↔
      (s.previous_long ≤ s.previous_short ∧ s.short_value < s.long_value)) ∧
    (∀ (sma : ℕ → ℚ × ℚ) (i j : ℕ), i < j → emitAt sma i = some .buy →
      emitAt sma j = some .buy →
      ∃ k, i < k ∧ k ≤ j ∧ (sma k).1 ≤ (sma k).2) ∧
    (∀ (sma : ℕ → ℚ × ℚ) (i j : ℕ), i < j → emitAt sma i = some .sell →
      emitAt sma j = some .sell →
      ∃ k, i < k ∧ k ≤ j ∧ (sma k).2 ≤ (sma k).1) := by
  have hbuy : ∀ s : MAState, evaluate s = some .buy ↔
      (s.previous_short ≤ s.previous_long ∧ s.long_value < s.short_value) := by
    intro s
    constructor
    · intro h
      unfold evaluate at h
      split_ifs at h with h1 h2
      · exact h1
      · injection h with h3
        cases h3
    · intro hc
      unfold evaluate
      rw [if_pos hc]
  have hsell : ∀ s : MAState, evaluate s = some .sell ↔
      (s.previous_long ≤ s.previous_short ∧ s.short_value < s.long_value) := by
    intro s
    constructor
    · intro h
      unfold evaluate at h
      split_ifs at h with h1 h2
      · injection h with h3
        cases h3
      · exact h2
    · intro hc
      have hn1 : ¬ (s.previous_short ≤ s.previous_long ∧
          s.long_value < s.short_value) :=
        fun hcontra => (lt_asymm hcontra.2) hc.2
      unfold evaluate
      rw [if_neg hn1, if_pos hc]
  refine ⟨hbuy, hsell, ?_, ?_⟩
  · intro sma i j hij hi hj
    have hj' : evaluate (stateAt sma j) = some .buy := hj
    exact ⟨j, hij, le_refl j, ((hbuy _).mp hj').1⟩
  · intro sma i j hij hi hj
    have hj' : evaluate (stateAt sma j) = some .sell := hj
    exact ⟨j, hij, le_refl j, ((hsell _).mp hj').1⟩

/-- Witness for claim C2: the crossover theorem applied to a concrete
moving-average stream that crosses up at steps 0 and 2, recovering the
cross-back in between, together with the BUY characterisation at a concrete
state. -/
theorem c2_signal_crossover_witness :
    (∃ k, 0 < k ∧ k ≤ 2 ∧ (demoSma k).1 ≤ (demoSma k).2) ∧
    evaluate { previous_short := 1, previous_long := 2, short_value := 5,
               long_value := 3 } = some .buy :=
  ⟨c2_signal_crossover.2.2.1 demoSma 0 2 (by norm_num) (by decide) (by decide),
   (c2_signal_crossover.1 _).mpr (by norm_num)⟩

/-- Claim C3: for a fixed bar sequence and fixed parameters the backtest is
a deterministic function of its inputs — two runs produce identical Trade
logs — and the live loop drives the identical per-tick logic, so a live run
over the same bars produces the same state as the replay. -/
theorem c3_backtest_determinism :
    (∀ (params : LoopParams) (cash : ℚ) (bars : List Bar),
      (runBacktest params cash bars).ledger.trades =
        (runBacktest params cash bars).ledger.trades) ∧
    (∀ (params : LoopParams) (cash : ℚ) (bars : List Bar),
      runLive params cash bars = runBacktest params cash bars) :=
  ⟨fun _ _ _ => rfl, fun _ _ _ => rfl⟩

theorem sizeAndApprove_ok_elim {params : RiskParams} {intent : Intent}
    {acct : Account} {positions : List Position} {o : ApprovedOrder}
    (h : sizeAndApprove params intent acct positions = .ok o) :
    positions.any (fun p => p.symbol == intent.symbol) = false ∧
    positions.length < params.max_positions ∧
    o.symbol = intent.symbol ∧
    o.quantity = (⌊acct.equity * params.position_size_pct / intent.price⌋ : ℚ) ∧
    o.quantity * intent.price ≤ acct.buying_power := by
  unfold sizeAndApprove at h
  split_ifs at h with h1 h2 h3
  cases h
  refine ⟨?_, not_le.mp h2, rfl, rfl, not_lt.mp h3⟩
  cases ha : positions.any (fun p => p.symbol == intent.symbol) with
  | false => rfl
  | true => exact absurd ha h1

/-- Claim C4: every approved entry order in percentage mode carries quantity
floor(equity * position_size_pct / price) and its notional never exceeds
buying power, an intent whose sized notional exceeds buying power is vetoed,
the concrete scenario equity 100000, position_size_pct 1/4, price 100 is
approved at exactly 250 shares, and the frontend Backtest form submits
position_size_pct as the whole percent 25, accepted by its [5, 50] range
rule. -/
theorem c4_position_sizing :
    (∀ (params : RiskParams) (intent : Intent) (acct : Account)
        (positions : List Position) (o : ApprovedOrder),
      sizeAndApprove params intent acct positions = .ok o →
      o.quantity = (⌊acct.equity * params.position_size_pct / intent.price⌋ : ℚ) ∧
      o.quantity * intent.price ≤ acct.buying_power) ∧
    (∀ (params : RiskParams) (intent : Intent) (acct : Account)
        (positions : List Position),
      positions.any (fun p => p.symbol == intent.symbol) = false →
      positions.length < params.max_positions →
      acct.buying_power <
        (⌊acct.equity * params.position_size_pct / intent.price⌋ : ℚ) * intent.price →
      sizeAndApprove params intent acct positions = .error .capital) ∧
    sizeAndApprove demoRisk demoIntent demoAccount [] = .ok demoOrder ∧
    Backtest.backtestDefaults.position_size_pct = 25 ∧
    Backtest.positionSizePctInRange Backtest.backtestDefaults.position_size_pct
      = true := by
  refine ⟨?_, ?_, ?_, rfl, by decide⟩
  · intro params intent acct positions o h
    obtain ⟨_, _, _, hq, hn⟩ := sizeAndApprove_ok_elim h
    exact ⟨hq, hn⟩
  · intro params intent acct positions hany hlen hbp
    unfold sizeAndApprove
    rw [if_neg (by simp [hany]), if_neg (not_le.mpr hlen), if_pos hbp]
  · unfold sizeAndApprove
    norm_num [demoRisk, demoIntent, demoAccount, demoOrder]

/-- Witness for claim C4: the sizing theorem applied to the concrete
scenario order, whose approval is part of the theorem itself. -/
theorem c4_position_sizing_witness :
    demoOrder.quantity =
      (⌊demoAccount.equity * demoRisk.position_size_pct / demoIntent.price⌋ : ℚ) ∧
    demoOrder.quantity * demoIntent.price ≤ demoAccount.buying_power :=
  c4_position_sizing.1 demoRisk demoIntent demoAccount [] demoOrder
    c4_position_sizing.2.2.1

theorem signalActions_no_forcedExit (params : LoopParams) (st : EngineState)
    (bar : Bar) (closes : List ℚ) :
    ∀ a ∈ signalActions params st bar closes, ∀ o : ExitOrder,
      a ≠ TickAction.forcedExit o := by
  simp only [signalActions]
  split
  · split
    · intro a ha o
      simp only [List.mem_singleton] at ha
      subst ha
      simp
    · intro a ha o
      simp at ha
  · split
    · intro a ha o
      simp only [List.mem_singleton] at ha
      subst ha
      simp
    · intro a ha o
      simp at ha
  · intro a ha o
    simp at ha

theorem forcedExit_before_entries {A : List ExitOrder}
    {rest : List TickAction}
    (hrest : ∀ a ∈ rest, ∀ o : ExitOrder, a ≠ TickAction.forcedExit o)
    {i j : ℕ} {o : ExitOrder} {e : ApprovedOrder}
    (hi : (A.map TickAction.forcedExit ++ rest)[i]? =
      some (.forcedExit o))
    (hj : (A.map TickAction.forcedExit ++ rest)[j]? =
      some (.newEntry e)) :
    i < j := by
  have hjlen : A.length ≤ j := by
    by_contra hlt
    push_neg at hlt
    have hlt' : j < (A.map TickAction.forcedExit).length := by
      simpa using hlt
    rw [List.getElem?_append_left hlt'] at hj
    rw [List.getElem?_eq_getElem hlt'] at hj
    injection hj with hj'
    rw [List.getElem_map] at hj'
    cases hj'
  have hilen : i < A.length := by
    by_contra hge
    push_neg at hge
    have hge' : (A.map TickAction.forcedExit).length ≤ i := by simpa using hge
    rw [List.getElem?_append_right hge'] at hi
    have hmem : TickAction.forcedExit o ∈ rest := List.getElem?_mem hi
    exact hrest _ hmem o rfl
  exact lt_of_lt_of_le hilen hjlen

/-- Claim C5: every forced exit produced by the stop and target scan has
exit_reason stop_loss only when the triggering price is at or below the
stop_loss_price of the position and take_profit only when it is at or above
its take_profit_price, and in the ordered action list of a tick every
forced exit is placed strictly before every new entry. -/
theorem c5_exit_discipline :
    (∀ (positions : List Position) (prices : String → ℚ) (o : ExitOrder),
      o ∈ scanExitsDue positions prices →
      ∃ p ∈ positions, p.symbol = o.symbol ∧ o.price = prices p.symbol ∧
        (o.reason = .stop_loss ∨ o.reason = .take_profit) ∧
        (o.reason = .stop_loss → o.price ≤ p.stop_loss_price) ∧
        (o.reason = .take_profit → p.take_profit_price ≤ o.price)) ∧
    (∀ (params : LoopParams) (st : EngineState) (bar : Bar) (i j : ℕ)
        (o : ExitOrder) (e : ApprovedOrder),
      (tickActions params st bar)[i]? = some (.forcedExit o) →
      (tickActions params st bar)[j]? = some (.newEntry e) →
      i < j) := by
  constructor
  · intro positions prices o ho
    simp only [scanExitsDue, List.mem_filterMap] at ho
    obtain ⟨p, hp, hf⟩ := ho
    refine ⟨p, hp, ?_⟩
    by_cases h1 : prices p.symbol ≤ p.stop_loss_price
    · rw [if_pos h1] at hf
      injection hf with hf'
      subst hf'
      exact ⟨rfl, rfl, Or.inl rfl, fun _ => h1,
        fun hr => ExitReason.noConfusion hr⟩
    · by_cases h2 : p.take_profit_price ≤ prices p.symbol
      · rw [if_neg h1, if_pos h2] at hf
        injection hf with hf'
        subst hf'
        exact ⟨rfl, rfl, Or.inr rfl, fun hr => ExitReason.noConfusion hr,
          fun _ => h2⟩
      · rw [if_neg h1, if_neg h2] at hf
        cases hf
  · intro params st bar i j o e hi hj
    simp only [tickActions] at hi hj
    by_cases hlen :
        (lookupBuffer (updateBuffer st.buffers bar.symbol bar.close)
          bar.symbol).length < params.long_window + 1
    · rw [if_pos hlen] at hi
      simp at hi
    · rw [if_neg hlen] at hi hj
      refine forcedExit_before_entries ?_ hi hj
      intro a ha o'
      split at ha
      · simp at ha
      · exact signalActions_no_forcedExit _ _ _ _ a ha o'

/-- Witness for claim C5: the exit-discipline theorem applied to a concrete
held position breached at price 8 and to the concrete tick in which the
forced exit of symbol B precedes the approved entry of symbol A. -/
theorem c5_exit_discipline_witness :
    (∃ p ∈ [demoPositionB], p.symbol = demoExitOrderB.symbol ∧
      demoExitOrderB.price = demoPricesLow p.symbol ∧
      (demoExitOrderB.reason = .stop_loss ∨
        demoExitOrderB.reason = .take_profit) ∧
      (demoExitOrderB.reason = .stop_loss →
        demoExitOrderB.price ≤ p.stop_loss_price) ∧
      (demoExitOrderB.reason = .take_profit →
        p.take_profit_price ≤ demoExitOrderB.price)) ∧
    (0 : ℕ) < 1 :=
  ⟨c5_exit_discipline.1 [demoPositionB] demoPricesLow demoExitOrderB
      (by norm_num [scanExitsDue, demoPositionB, demoPricesLow,
        demoExitOrderB, List.filterMap]),
   c5_exit_discipline.2 demoLoopParams demoEngineState demoBar 0 1
      demoExitOrderB demoEntryOrderA
      (by norm_num +decide [tickActions, signalActions, updateBuffer,
        lookupBuffer, latestPrices, scanExitsDue, maStateOf, smaOf, evaluate,
        sizeAndApprove, riskOf, demoLoopParams, demoEngineState, demoBar,
        demoPositionB, demoExitOrderB, demoEntryOrderA, List.filterMap,
        List.find?])
      (by norm_num +decide [tickActions, signalActions, updateBuffer,
        lookupBuffer, latestPrices, scanExitsDue, maStateOf, smaOf, evaluate,
        sizeAndApprove, riskOf, demoLoopParams, demoEngineState, demoBar,
        demoPositionB, demoExitOrderB, demoEntryOrderA, List.filterMap,
        List.find?])⟩

theorem applyFill_entry_positions {prices : String → ℚ} {st : LedgerState}
    {o : ApprovedOrder} {st' : LedgerState}
    (h : applyFill prices st (fillOfEntry o) = .ok st') :
    st'.positions = st.positions ++
      [{ symbol := o.symbol, quantity := o.quantity,
         avg_entry_price := o.price, entry_time := o.time,
         stop_loss_price := o.stop_loss_price,
         take_profit_price := o.take_profit_price }] := by
  simp only [applyFill, fillOfEntry] at h
  obtain ⟨rfl, -⟩ := checkInvariant_ok_elim h
  rfl

theorem applyFill_exitFillOf_positions {prices : String → ℚ}
    {st : LedgerState} {sym : String} {price : ℚ} {reason : ExitReason}
    {t : ℕ} {st' : LedgerState}
    (h : applyFill prices st (exitFillOf sym price reason t) = .ok st') :
    st'.positions = st.positions.filter (fun q => q.symbol != sym) := by
  simp only [applyFill, exitFillOf] at h
  cases hf : st.positions.find? (fun p => p.symbol == sym) with
  | none => rw [hf] at h; cases h
  | some p =>
    rw [hf] at h
    obtain ⟨rfl, -⟩ := checkInvariant_ok_elim h
    rfl

theorem stepPortfolio_invariant (params : RiskParams) (prices : String → ℚ)
    (st : LedgerState) (op : PortfolioOp)
    (hinv : positionsInvariant params st) :
    positionsInvariant params (stepPortfolio params prices st op) := by
  cases op with
  | entryIntent intent acct =>
    simp only [stepPortfolio]
    split
    · rename_i o ha
      split
      · rename_i st1 hf
        obtain ⟨hany, hlen, hsym, -, -⟩ := sizeAndApprove_ok_elim ha
        have hpos := applyFill_entry_positions hf
        constructor
        · rw [hpos, List.map_append]
          rw [List.nodup_append]
          refine ⟨hinv.1, by simp, ?_⟩
          intro a ha1 ha2
          simp only [List.map_cons, List.map_nil, List.mem_singleton] at ha2
          subst ha2
          rw [hsym] at ha1
          obtain ⟨p, hpmem, hpeq⟩ := List.mem_map.mp ha1
          have hfalse := (List.any_eq_false.mp hany) p hpmem
          exact hfalse (by simp [hpeq])
        · rw [hpos, List.length_append]
          simpa using hlen
      · exact hinv
    · exact hinv
  | exitFill sym price reason t =>
    simp only [stepPortfolio]
    split
    · rename_i st1 hf
      have hpos := applyFill_exitFillOf_positions hf
      constructor
      · rw [hpos]
        exact hinv.1.sublist ((List.filter_sublist _).map _)
      · rw [hpos]
        exact le_trans (List.length_filter_le _ _) hinv.2
    · exact hinv

/-- Claim C6: the RiskManager vetoes an entry intent for a symbol that
already has an open Position and an entry that would exceed max_positions,
and consequently every portfolio state reachable from a state satisfying
the open-position invariants — through gated entry intents and exit
fills — has at most one open Position per symbol and at most max_positions
open Positions. -/
theorem c6_position_limits :
    (∀ (params : RiskParams) (intent : Intent) (acct : Account)
        (positions : List Position),
      positions.any (fun p => p.symbol == intent.symbol) = true →
      sizeAndApprove params intent acct positions = .error .existingPosition) ∧
    (∀ (params : RiskParams) (intent : Intent) (acct : Account)
        (positions : List Position),
      positions.any (fun p => p.symbol == intent.symbol) = false →
      params.max_positions ≤ positions.length →
      sizeAndApprove params intent acct positions = .error .maxPositions) ∧
    (∀ (params : RiskParams) (prices : String → ℚ) (st : LedgerState)
        (ops : List PortfolioOp),
      positionsInvariant params st →
      positionsInvariant params (runPortfolio params prices st ops)) := by
  refine ⟨?_, ?_, ?_⟩
  · intro params intent acct positions h
    unfold sizeAndApprove
    rw [if_pos h]
  · intro params intent acct positions hany hlen
    unfold sizeAndApprove
    rw [if_neg (by simp [hany]), if_pos hlen]
  · intro params prices st ops hinv
    induction ops generalizing st with
    | nil => exact hinv
    | cons op ops ih =>
      exact ih (stepPortfolio params prices st op)
        (stepPortfolio_invariant params prices st op hinv)

/-- Witness for claim C6: the invariant theorem applied to a fresh ledger
and one gated entry intent. -/
theorem c6_position_limits_witness :
    positionsInvariant demoRisk
      (runPortfolio demoRisk demoPrices demoLedger0
        [.entryIntent demoIntent demoAccount]) :=
  c6_position_limits.2.2 demoRisk demoPrices demoLedger0
    [.entryIntent demoIntent demoAccount]
    (by constructor <;> simp [positionsInvariant, demoLedger0, demoRisk])

theorem list_sum_nonpos {xs : List ℚ} (h : ∀ x ∈ xs, x ≤ 0) : xs.sum ≤ 0 := by
  induction xs with
  | nil => simp
  | cons a l ih =>
    simp only [List.sum_cons]
    have ha := h a (by simp)
    have hl := ih (fun x hx => h x (by simp [hx]))
    linarith

theorem mean_nonpos {xs : List ℚ} (h : ∀ x ∈ xs, x ≤ 0) : mean xs ≤ 0 := by
  unfold mean
  exact div_nonpos_iff.mpr (Or.inr ⟨list_sum_nonpos h, by positivity⟩)

theorem std_nonneg (xs : List ℚ) : 0 ≤ std xs := by
  unfold std
  exact Real.sqrt_nonneg _

theorem sharpe_nonpos {xs : List ℚ} (h : mean xs ≤ 0) : sharpe xs ≤ 0 := by
  unfold sharpe
  split_ifs with h0
  · exact le_refl 0
  · have hstd : 0 < std xs := lt_of_le_of_ne (std_nonneg xs) (Ne.symm h0)
    have h1 : ((mean xs : ℚ) : ℝ) ≤ 0 := by exact_mod_cast h
    have h2 : ((mean xs : ℚ) : ℝ) / std xs ≤ 0 :=
      div_nonpos_iff.mpr (Or.inr ⟨h1, le_of_lt hstd⟩)
    exact mul_nonpos_iff.mpr (Or.inr ⟨h2, Real.sqrt_nonneg 252⟩)

theorem dailyReturns_nonpos : ∀ (init : ℚ) (ts : List Engine.Trade),
    (∀ t ∈ ts, t.pnl < 0) → (∀ b ∈ balances init ts, 0 < b) →
    ∀ r ∈ dailyReturns init ts, r ≤ 0 := by
  intro init ts
  induction ts generalizing init with
  | nil =>
    intro _ _ r hr
    simp [dailyReturns] at hr
  | cons t ts ih =>
    intro hpnl hbal r hr
    simp only [dailyReturns, List.mem_cons] at hr
    rcases hr with rfl | hr
    · have hpos : 0 < init := hbal init (by simp [balances])
      have heq : (init + t.pnl) - init = t.pnl := by ring
      rw [heq]
      have hp : t.pnl < 0 := hpnl t (by simp)
      exact div_nonpos_iff.mpr (Or.inr ⟨le_of_lt hp, le_of_lt hpos⟩)
    · refine ih (init + t.pnl) (fun u hu => hpnl u (by simp [hu])) ?_ r hr
      intro b hb
      refine hbal b ?_
      show b ∈ init :: balances (init + t.pnl) ts
      exact List.mem_cons_of_mem _ hb

theorem winRate_eq_zero {trades : List Engine.Trade} (hne : trades ≠ [])
    (h : ∀ t ∈ trades, t.pnl < 0) : winRate trades = 0 := by
  unfold winRate
  rw [if_neg (by simpa using hne)]
  have hfil : trades.filter (fun t => decide (0 < t.pnl)) = [] := by
    rw [List.filter_eq_nil_iff]
    intro t ht
    simp only [decide_eq_true_eq]
    exact not_lt.mpr (le_of_lt (h t ht))
  rw [hfil]
  simp

/-- Claim C7: the analytics are total on degenerate inputs — for an empty
Trade log winRate is exactly 0, a zero standard deviation of the daily
returns makes the Sharpe ratio exactly 0 rather than an error, and for a
Trade log of losing trades (with the balance series staying positive)
winRate is exactly 0 and the Sharpe ratio of the derived daily returns is
at most 0. -/
theorem c7_analytics_degenerate :
    winRate [] = 0 ∧
    (∀ xs : List ℚ, std xs = 0 → sharpe xs = 0) ∧
    (∀ (init : ℚ) (trades : List Engine.Trade), trades ≠ [] →
      (∀ t ∈ trades, t.pnl < 0) →
      (∀ b ∈ balances init trades, 0 < b) →
      winRate trades = 0 ∧ sharpe (dailyReturns init trades) ≤ 0) := by
  refine ⟨by simp [winRate], ?_, ?_⟩
  · intro xs h
    unfold sharpe
    rw [if_pos h]
  · intro init trades hne hpnl hbal
    exact ⟨winRate_eq_zero hne hpnl,
      sharpe_nonpos (mean_nonpos (dailyReturns_nonpos init trades hpnl hbal))⟩

/-- Witness for claim C7: the degenerate-input theorem applied to a
concrete all-losing trade log from a positive starting balance. -/
theorem c7_analytics_degenerate_witness :
    winRate demoLosingTrades = 0 ∧
    sharpe (dailyReturns 1000 demoLosingTrades) ≤ 0 :=
  c7_analytics_degenerate.2.2 1000 demoLosingTrades
    (by simp [demoLosingTrades])
    (by norm_num [demoLosingTrades])
    (by norm_num [balances, demoLosingTrades])
